import Mathlib

/-
Verification of the task-tracker module `todo.py`.

Shallow embedding conventions:
- timestamps (`datetime.now()`) and due dates are modelled as natural
  numbers ordered chronologically; `None` becomes `Option.none`;
- a `uuid.UUID` value is its 128-bit integer, modelled as a `Nat`;
- printed messages are modelled as an inductive `Output` event stream,
  abstracting the exact f-string formatting;
- the pickle file is modelled as a `FileState`; the exceptions raised by
  `open`/`pickle.load`/`uuid.UUID` are modelled with `Except`.
-/

namespace Todo

/-- Task entity (`Task.__init__` in todo.py): `created` timestamp, optional
`completed` timestamp (`None` while the task is open), `name`, random
`unique_id` (the 128-bit value of the `uuid.uuid4()` result), `priority`
(Python int, unvalidated), optional `due_date`. -/
structure Task where
  created : Nat
  completed : Option Nat
  name : String
  unique_id : Nat
  priority : Int
  due_date : Option Nat
deriving DecidableEq, Repr

/-- Embedding of `Task.completed_task`: sets `self.completed = datetime.now()`. -/
def Task.completed_task (now : Nat) (t : Task) : Task :=
  Task.mk t.created (some now) t.name t.unique_id t.priority t.due_date

/-- The sort key comparison used at todo.py lines 82, 89 and 128:
Python's tuple comparison on `(x.due_date is None, x.due_date, x.priority)`
(`False < True`; the two `due_date` components are only compared when both
tasks have a due date, or are both `None` and hence equal). -/
def taskLe (a b : Task) : Bool :=
  match a.due_date, b.due_date with
  | some da, some db =>
    if da < db then true
    else if db < da then false
    else decide (a.priority ≤ b.priority)
  | some _, none => true
  | none, some _ => false
  | none, none => decide (a.priority ≤ b.priority)

/-- Python's `list.sort(key=...)` is a stable mergesort; `mergeSort` with the
key comparison `taskLe` computes the same list. -/
def sortTasks (l : List Task) : List Task :=
  l.mergeSort taskLe

/-- The list comprehension `[task for task in self.tasks if task.completed is None]`. -/
def openTasks (tasks : List Task) : List Task :=
  tasks.filter (fun t => t.completed.isNone)

/-- The row sequence displayed by `Tasks.list`: open tasks, sorted. -/
def listRows (tasks : List Task) : List Task :=
  sortTasks (openTasks tasks)

/-- Printed-output events, abstracting the `print` calls in todo.py. -/
inductive Output where
  | createdMsg (id : Nat)
  | addErrorMsg
  | completedMsg (raw : String)
  | deletedMsg (raw : String)
  | notFoundMsg (raw : String)
  | table (rows : List Task)
  | reportTable (rows : List Task)
deriving DecidableEq, Repr

/-- Embedding of `Tasks.list`: prints the sorted copy of the open tasks; `self.tasks` is
not reassigned, so the state component is returned unchanged. -/
def Tasks.list (tasks : List Task) : List Task × List Output :=
  (tasks, [Output.table (listRows tasks)])

/-- Embedding of `Tasks.report`: `self.tasks.sort(...)` sorts the full stored collection
in place, then prints every task; the new state is the sorted collection. -/
def Tasks.report (tasks : List Task) : List Task × List Output :=
  (sortTasks tasks, [Output.reportTable (sortTasks tasks)])

/-- Case-insensitive lowering of a string to its character list
(`str.lower()`). -/
def lowerChars (s : String) : List Char :=
  s.toList.map Char.toLower

/-- Python's substring test `needle in hay` on character lists. -/
def containsSub (needle hay : List Char) : Bool :=
  hay.tails.any (fun t => needle.isPrefixOf t)

/-- Embedding of `term.lower() in task.name.lower()` (todo.py line 132). -/
def termMatches (term name : String) : Bool :=
  containsSub (lowerChars term) (lowerChars name)

/-- The `results` list built by `Tasks.query`: for each sorted open task
(outer loop), one copy is appended per term of `terms` (inner loop) that
matches the task name. -/
def queryResults (terms : List String) (tasks : List Task) : List Task :=
  (listRows tasks).flatMap
    (fun task => (terms.filter (fun term => termMatches term task.name)).map (fun _ => task))

/-- Embedding of `Tasks.query`: prints the matching rows; the stored collection is a
freshly sorted copy, so the state is unchanged. -/
def Tasks.query (terms : List String) (tasks : List Task) : List Task × List Output :=
  (tasks, [Output.table (queryResults terms tasks)])

/-- Embedding of `Tasks.add` (todo.py lines 137-149): an empty name fails the
`if not name or not isinstance(name, str)` guard (in this typed embedding
`name` is always a string, so only emptiness can fail), printing an error
and mutating nothing; otherwise a fresh task (new id `idv`, creation time
`now`, `completed = None`) is appended and its id reported. -/
def Tasks.add (idv now : Nat) (name : String) (priority : Int) (due_date : Option Nat)
    (tasks : List Task) : List Task × List Output :=
  if name = "" then (tasks, [Output.addErrorMsg])
  else (tasks ++ [Task.mk now none name idv priority due_date], [Output.createdMsg idv])

/-- Exceptions that escape the task operations: `uuid.UUID` raises
`ValueError` on a malformed identifier string. -/
inductive PyError where
  | valueError
deriving DecidableEq, Repr

/-- Hexadecimal digit test (`int(hex, 16)` accepts 0-9, a-f, A-F). -/
def isHexDigit (c : Char) : Bool :=
  (48 ≤ c.toNat && c.toNat ≤ 57) || (97 ≤ c.toNat && c.toNat ≤ 102)
    || (65 ≤ c.toNat && c.toNat ≤ 70)

/-- Value of a hexadecimal digit. -/
def hexDigitVal (c : Char) : Nat :=
  if 97 ≤ c.toNat then c.toNat - 87
  else if 65 ≤ c.toNat then c.toNat - 55
  else c.toNat - 48

/-- Value of a hexadecimal digit string, most significant digit first. -/
def hexVal (l : List Char) : Nat :=
  l.foldl (fun acc c => acc * 16 + hexDigitVal c) 0

/-- A curly brace character (written numerically). -/
def isBraceChar (c : Char) : Bool :=
  c.toNat = 123 || c.toNat = 125

/-- Python's `str.strip` with a brace set: drop braces from both ends. -/
def stripBraces (l : List Char) : List Char :=
  ((l.dropWhile isBraceChar).reverse.dropWhile isBraceChar).reverse

/-- Remove every occurrence of `pat` from the list (`str.replace(pat, "")`);
structured with explicit fuel, initialised to the list length, which
suffices since every step consumes at least one character for the non-empty
patterns used below. -/
def removeSubAux : Nat → List Char → List Char → List Char
  | 0, _, l => l
  | _ + 1, _, [] => []
  | fuel + 1, pat, c :: r =>
    if pat.isPrefixOf (c :: r) then removeSubAux fuel pat ((c :: r).drop pat.length)
    else c :: removeSubAux fuel pat r

/-- Remove every occurrence of `pat` from `l`. -/
def removeSub (pat l : List Char) : List Char :=
  removeSubAux l.length pat l

/-- Model of the string parsing done by Python's `uuid.UUID` constructor
(called at todo.py lines 116 and 154): remove `urn:` and `uuid:`
occurrences, strip surrounding braces, remove hyphens, then require exactly
32 hexadecimal digits; the resulting 128-bit integer is the UUID value.
Any other string raises `ValueError`. -/
def uuidParse (s : String) : Option Nat :=
  let h := removeSub [Char.ofNat 45]
    (stripBraces (removeSub "uuid:".toList (removeSub "urn:".toList s.toList)))
  if h.length = 32 && h.all isHexDigit then some (hexVal h) else none

/-- The loop of `Tasks.done`: find the first task whose `unique_id` equals
the parsed value and overwrite its completion time; `none` when no task
matches. -/
def doneLoop (now v : Nat) : List Task → Option (List Task)
  | [] => none
  | t :: rest =>
    if t.unique_id = v then some (Task.completed_task now t :: rest)
    else (doneLoop now v rest).map (fun r => t :: r)

/-- Embedding of `Tasks.done` (todo.py lines 113-120). `uuid.UUID(unique_id)` is
evaluated inside the loop body, so on an empty collection the identifier is
never parsed and "No task found" is printed; on a non-empty collection a
malformed identifier raises `ValueError` before any comparison. -/
def Tasks.done (now : Nat) (s : String) (tasks : List Task) :
    Except PyError (List Task × List Output) :=
  match tasks with
  | [] => Except.ok (tasks, [Output.notFoundMsg s])
  | _ :: _ =>
    match uuidParse s with
    | none => Except.error PyError.valueError
    | some v =>
      match doneLoop now v tasks with
      | some tasks2 => Except.ok (tasks2, [Output.completedMsg s])
      | none => Except.ok (tasks, [Output.notFoundMsg s])

/-- The loop of `Tasks.delete`: remove the first task whose `unique_id`
equals the parsed value; `none` when no task matches. -/
def deleteLoop (v : Nat) : List Task → Option (List Task)
  | [] => none
  | t :: rest =>
    if t.unique_id = v then some rest
    else (deleteLoop v rest).map (fun r => t :: r)

/-- Embedding of `Tasks.delete` (todo.py lines 151-158), with the same parse-inside-loop
behaviour as `Tasks.done`. -/
def Tasks.delete (s : String) (tasks : List Task) :
    Except PyError (List Task × List Output) :=
  match tasks with
  | [] => Except.ok (tasks, [Output.notFoundMsg s])
  | _ :: _ =>
    match uuidParse s with
    | none => Except.error PyError.valueError
    | some v =>
      match deleteLoop v tasks with
      | some tasks2 => Except.ok (tasks2, [Output.deletedMsg s])
      | none => Except.ok (tasks, [Output.notFoundMsg s])

/-- Contents of the `.todo.pickle` file once it exists: a zero-byte file and
a stream truncated mid-input both make `pickle.load` raise `EOFError`
("ran out of input"); otherwise-corrupt data raises `UnpicklingError`; a
well-formed pickle deserializes to the task list it encodes. -/
inductive FileContent where
  | emptyFile
  | truncated
  | corrupt
  | good (tasks : List Task)
deriving DecidableEq, Repr

/-- The persistence file: either absent or present with some content. -/
inductive FileState where
  | missing
  | present (content : FileContent)
deriving DecidableEq, Repr

/-- Exceptions that arise while reading the pickle file. -/
inductive LoadError where
  | fileNotFoundError
  | eofError
  | unpicklingError
deriving DecidableEq, Repr

/-- Embedding of `open('.todo.pickle', 'rb')`: raises `FileNotFoundError` when the file
is absent. -/
def openRead : FileState → Except LoadError FileContent
  | FileState.missing => Except.error LoadError.fileNotFoundError
  | FileState.present c => Except.ok c

/-- Embedding of `pickle.load(pickle_file)` on the file contents. -/
def pickleLoad : FileContent → Except LoadError (List Task)
  | FileContent.emptyFile => Except.error LoadError.eofError
  | FileContent.truncated => Except.error LoadError.eofError
  | FileContent.corrupt => Except.error LoadError.unpicklingError
  | FileContent.good tasks => Except.ok tasks

/-- Embedding of `Tasks.__init__` (todo.py lines 40-51): the inner `try` catches exactly
`EOFError` (empty collection), the outer `try` catches exactly
`FileNotFoundError` (empty collection); every other exception propagates. -/
def tasksInit (fs : FileState) : Except LoadError (List Task) :=
  match openRead fs with
  | Except.error e =>
    if e = LoadError.fileNotFoundError then Except.ok [] else Except.error e
  | Except.ok c =>
    match pickleLoad c with
    | Except.error e =>
      if e = LoadError.eofError then Except.ok [] else Except.error e
    | Except.ok tasks => Except.ok tasks

/-- Embedding of `Tasks.pickle_tasks`: serializes the full collection, overwriting the
file. -/
def pickle_tasks (tasks : List Task) : FileState :=
  FileState.present (FileContent.good tasks)

/-- The argparse namespace consumed by `main` (todo.py lines 164-171):
`--add`, `--done`, `--delete` are strings, `--query` is a list of strings,
`--list` and `--report` are flags, `--priority` defaults to 1, `--due` is
an optional date. -/
structure Args where
  add : Option String
  priority : Int
  due : Option Nat
  query : Option (List String)
  list : Bool
  done : Option String
  delete : Option String
  report : Bool
deriving DecidableEq, Repr

/-- Python truthiness of an optional string (`if args.add:`): an absent
value and the empty string are both falsy. -/
def truthyStr : Option String → Bool
  | none => false
  | some s => !(s == "")

/-- Python truthiness of an optional list (`elif args.query:`). -/
def truthyList : Option (List String) → Bool
  | none => false
  | some l => !l.isEmpty

/-- Whether exactly one of the six action flags is truthy. -/
def exactlyOneFlag (args : Args) : Bool :=
  ((if truthyStr args.add then 1 else 0) + (if args.list then 1 else 0)
      + (if truthyList args.query then 1 else 0) + (if truthyStr args.done then 1 else 0)
      + (if truthyStr args.delete then 1 else 0) + (if args.report then 1 else 0) : Nat)
    == 1

/-- The `if/elif` dispatch of `main` (todo.py lines 179-190), in its fixed
precedence order; a fresh id `idv` and the current time `now` are supplied
for the `add` branch. When no flag is truthy, no action runs. -/
def runAction (now idv : Nat) (args : Args) (tasks : List Task) :
    Except PyError (List Task × List Output) :=
  if truthyStr args.add then
    Except.ok (Tasks.add idv now (args.add.getD "") args.priority args.due tasks)
  else if args.list then Except.ok (Tasks.list tasks)
  else if truthyList args.query then Except.ok (Tasks.query (args.query.getD []) tasks)
  else if truthyStr args.done then Tasks.done now (args.done.getD "") tasks
  else if truthyStr args.delete then Tasks.delete (args.delete.getD "") tasks
  else if args.report then Except.ok (Tasks.report tasks)
  else Except.ok (tasks, [])

/-- Exceptions that escape `main`. -/
inductive MainError where
  | loadError (e : LoadError)
  | actionError (e : PyError)
deriving DecidableEq, Repr

/-- Result of a normal run of `main`: the sequence of file writes performed
(`pickle_tasks` is the only writer, called once at line 192), the printed
output, and the process exit status (`exit()` at line 193 exits with 0). -/
structure MainResult where
  writes : List FileState
  outputs : List Output
  exitCode : Nat
deriving DecidableEq, Repr

/-- Embedding of `main` (todo.py lines 177-193): load the collection, dispatch exactly
one action, persist once, exit with status 0. An exception anywhere aborts
the run before the save. -/
def main (now idv : Nat) (args : Args) (fs : FileState) :
    Except MainError MainResult :=
  match tasksInit fs with
  | Except.error e => Except.error (MainError.loadError e)
  | Except.ok tasks =>
    match runAction now idv args tasks with
    | Except.error e => Except.error (MainError.actionError e)
    | Except.ok (tasks2, out) =>
      Except.ok (MainResult.mk [pickle_tasks tasks2] out 0)

/-- The display ordering promised for `list()` output: due-dated tasks
before non-due-dated ones, ascending due dates, and ascending priority
among tasks tied on due-date presence and due date. -/
def displayR (a b : Task) : Prop :=
  (a.due_date = none → b.due_date = none) ∧
  (∀ da db, a.due_date = some da → b.due_date = some db → da ≤ db) ∧
  (a.due_date = b.due_date → a.priority ≤ b.priority)

lemma taskLe_trans : ∀ a b c : Task, taskLe a b → taskLe b c → taskLe a c := by
  intro ⟨ca, oa, na, ia, pa, da⟩ ⟨cb, ob, nb, ib, pb, db⟩ ⟨cc, oc, nc, ic, pc, dc⟩ h1 h2
  simp only [taskLe] at h1 h2 ⊢
  rcases da with _ | va <;> rcases db with _ | vb <;> rcases dc with _ | vc <;>
    simp_all <;> omega

lemma taskLe_total : ∀ a b : Task, taskLe a b || taskLe b a := by
  intro ⟨ca, oa, na, ia, pa, da⟩ ⟨cb, ob, nb, ib, pb, db⟩
  simp only [taskLe]
  rcases da with _ | va <;> rcases db with _ | vb <;>
    simp_all <;> omega

lemma taskLe_displayR : ∀ a b : Task, taskLe a b → displayR a b := by
  intro ⟨ca, oa, na, ia, pa, da⟩ ⟨cb, ob, nb, ib, pb, db⟩ h
  simp only [taskLe, displayR] at h ⊢
  rcases da with _ | va <;> rcases db with _ | vb <;>
    simp_all <;> omega

lemma displayR_refl (a : Task) : displayR a a := by
  refine ⟨fun h => h, ?_, fun _ => le_refl _⟩
  intro da db h1 h2
  rw [h1] at h2
  exact le_of_eq (Option.some.inj h2)

lemma sortTasks_pairwise (l : List Task) : (sortTasks l).Pairwise (fun a b => taskLe a b = true) :=
  List.sorted_mergeSort taskLe_trans taskLe_total l

lemma listRows_pairwise (tasks : List Task) : (listRows tasks).Pairwise displayR :=
  (sortTasks_pairwise (openTasks tasks)).imp (fun hab => taskLe_displayR _ _ hab)

lemma doneLoop_not_found (now v : Nat) :
    ∀ l : List Task, (∀ t ∈ l, t.unique_id ≠ v) → doneLoop now v l = none := by
  intro l hl
  induction l with
  | nil => rfl
  | cons t r ih =>
    have ht : t.unique_id ≠ v := hl t (List.mem_cons_self t r)
    simp [doneLoop, ht, ih (fun u hu => hl u (List.mem_cons_of_mem t hu))]

lemma deleteLoop_not_found (v : Nat) :
    ∀ l : List Task, (∀ t ∈ l, t.unique_id ≠ v) → deleteLoop v l = none := by
  intro l hl
  induction l with
  | nil => rfl
  | cons t r ih =>
    have ht : t.unique_id ≠ v := hl t (List.mem_cons_self t r)
    simp [deleteLoop, ht, ih (fun u hu => hl u (List.mem_cons_of_mem t hu))]

lemma doneLoop_found (now v : Nat) (pre : List Task) (hpre : ∀ u ∈ pre, u.unique_id ≠ v)
    (tk : Task) (hid : tk.unique_id = v) (post : List Task) :
    doneLoop now v (pre ++ tk :: post) = some (pre ++ Task.completed_task now tk :: post) := by
  induction pre with
  | nil => simp [doneLoop, hid]
  | cons u r ih =>
    have hu : u.unique_id ≠ v := hpre u (List.mem_cons_self u r)
    simp [doneLoop, hu, ih (fun x hx => hpre x (List.mem_cons_of_mem u hx))]

lemma deleteLoop_found (v : Nat) (pre : List Task) (hpre : ∀ u ∈ pre, u.unique_id ≠ v)
    (tk : Task) (hid : tk.unique_id = v) (post : List Task) :
    deleteLoop v (pre ++ tk :: post) = some (pre ++ post) := by
  induction pre with
  | nil => simp [deleteLoop, hid]
  | cons u r ih =>
    have hu : u.unique_id ≠ v := hpre u (List.mem_cons_self u r)
    simp [deleteLoop, hu, ih (fun x hx => hpre x (List.mem_cons_of_mem u hx))]

lemma done_eq_loop (now : Nat) (s : String) (v : Nat) (hs : uuidParse s = some v)
    (t : Task) (r : List Task) :
    Tasks.done now s (t :: r) =
      (match doneLoop now v (t :: r) with
        | some tasks2 => Except.ok (tasks2, [Output.completedMsg s])
        | none => Except.ok (t :: r, [Output.notFoundMsg s])) := by
  simp [Tasks.done, hs]

lemma delete_eq_loop (s : String) (v : Nat) (hs : uuidParse s = some v)
    (t : Task) (r : List Task) :
    Tasks.delete s (t :: r) =
      (match deleteLoop v (t :: r) with
        | some tasks2 => Except.ok (tasks2, [Output.deletedMsg s])
        | none => Except.ok (t :: r, [Output.notFoundMsg s])) := by
  simp [Tasks.delete, hs]

lemma count_emit (t : Task) (terms : List String) :
    ∀ l : List Task,
      (l.flatMap (fun task =>
          (terms.filter (fun term => termMatches term task.name)).map (fun _ => task))).count t
        = l.count t * terms.countP (fun term => termMatches term t.name) := by
  intro l
  induction l with
  | nil => simp
  | cons x r ih =>
    simp only [List.flatMap_cons, List.count_append, ih, List.count_cons]
    by_cases hx : x = t
    · subst hx
      simp [List.map_const', List.count_replicate, List.countP_eq_length_filter, Nat.succ_mul]
      omega
    · have hx2 : t ≠ x := fun h => hx h.symm
      simp [List.map_const', List.count_replicate, hx2, hx]

lemma pairwise_emit (terms : List String) :
    ∀ l : List Task, l.Pairwise displayR →
      (l.flatMap (fun task =>
          (terms.filter (fun term => termMatches term task.name)).map (fun _ => task))).Pairwise
        displayR := by
  intro l hl
  induction l with
  | nil => simp
  | cons x r ih =>
    simp only [List.flatMap_cons]
    rw [List.pairwise_append]
    obtain ⟨hxr, hr⟩ := List.pairwise_cons.mp hl
    refine ⟨?_, ih hr, ?_⟩
    · rw [List.map_const']
      exact List.pairwise_replicate.mpr (Or.inr (displayR_refl x))
    · intro a ha b hb
      obtain ⟨_, _, rfl⟩ := List.mem_map.mp ha
      obtain ⟨y, hy, hb2⟩ := List.mem_flatMap.mp hb
      obtain ⟨_, _, rfl⟩ := List.mem_map.mp hb2
      exact hxr y hy

lemma mem_queryResults (terms : List String) (tasks : List Task) (t : Task) :
    t ∈ queryResults terms tasks ↔
      (t ∈ tasks ∧ t.completed = none ∧ ∃ term ∈ terms, termMatches term t.name) := by
  simp only [queryResults, listRows, sortTasks, openTasks, List.mem_flatMap, List.mem_map,
    List.mem_mergeSort, List.mem_filter, Option.isNone_iff_eq_none, List.mem_filter]
  constructor
  · rintro ⟨x, ⟨hx1, hx2⟩, term, ⟨hterm, hmatch⟩, rfl⟩
    exact ⟨hx1, hx2, term, hterm, hmatch⟩
  · rintro ⟨h1, h2, term, hterm, hmatch⟩
    exact ⟨t, ⟨h1, h2⟩, term, ⟨hterm, hmatch⟩, rfl⟩

lemma main_eq_load (now idv : Nat) (args : Args) (fs : FileState) (tasks0 : List Task)
    (h0 : tasksInit fs = Except.ok tasks0) :
    main now idv args fs =
      (match runAction now idv args tasks0 with
        | Except.error e => Except.error (MainError.actionError e)
        | Except.ok (tasks2, out) =>
          Except.ok (MainResult.mk [pickle_tasks tasks2] out 0)) := by
  unfold main
  rw [h0]

lemma main_eq_load_error (now idv : Nat) (args : Args) (fs : FileState) (e : LoadError)
    (h0 : tasksInit fs = Except.error e) :
    main now idv args fs = Except.error (MainError.loadError e) := by
  unfold main
  rw [h0]

/-- C1: the sequence of tasks displayed by `list()` is pairwise ordered by
`displayR`: every task with a due date precedes every task without one,
due-dated tasks appear in ascending due-date order, and tasks tied on
due-date presence and due date appear in ascending priority order. -/
theorem list_sort_order (tasks : List Task) :
    (Tasks.list tasks).2 = [Output.table (listRows tasks)] ∧
    (listRows tasks).Pairwise displayR :=
  ⟨rfl, listRows_pairwise tasks⟩

/-- C2 (amended): for every identifier string that parses as a valid UUID
whose value equals no task's id, `done` and `delete` leave the collection
unchanged and print the "No task found" message. -/
theorem done_delete_unknown_id (now : Nat) (s : String) (v : Nat) (hs : uuidParse s = some v)
    (tasks : List Task) (hv : ∀ t ∈ tasks, t.unique_id ≠ v) :
    Tasks.done now s tasks = Except.ok (tasks, [Output.notFoundMsg s]) ∧
    Tasks.delete s tasks = Except.ok (tasks, [Output.notFoundMsg s]) := by
  cases tasks with
  | nil => exact ⟨rfl, rfl⟩
  | cons t r =>
    constructor
    · rw [done_eq_loop now s v hs t r, doneLoop_not_found now v (t :: r) hv]
    · rw [delete_eq_loop s v hs t r, deleteLoop_not_found v (t :: r) hv]

/-- C2 witness: a syntactically valid UUID string matching no stored id
yields the not-found message from both `done` and `delete`. -/
theorem done_delete_unknown_id_witness :
    Tasks.done 3 "00000000000000000000000000000000" [Task.mk 0 none "A" 11 1 none]
      = Except.ok ([Task.mk 0 none "A" 11 1 none],
          [Output.notFoundMsg "00000000000000000000000000000000"]) ∧
    Tasks.delete "00000000000000000000000000000000" [Task.mk 0 none "A" 11 1 none]
      = Except.ok ([Task.mk 0 none "A" 11 1 none],
          [Output.notFoundMsg "00000000000000000000000000000000"]) :=
  done_delete_unknown_id 3 "00000000000000000000000000000000" 0 (by decide)
    [Task.mk 0 none "A" 11 1 none] (by decide)

/-- C2 counterexample to the claim as stated: the string "zzz" equals the
id of no task in the one-task collection, yet `done` and `delete` raise
`ValueError` rather than leaving the collection with a "No task found"
message. -/
theorem done_delete_unknown_id_cex :
    Tasks.done 0 "zzz" [Task.mk 0 none "A" 11 1 none] = Except.error PyError.valueError ∧
    Tasks.delete "zzz" [Task.mk 0 none "A" 11 1 none] = Except.error PyError.valueError :=
  ⟨rfl, rfl⟩

/-- C3 (amended): on a NON-EMPTY collection, `done`/`delete` with a string
that is not a syntactically valid UUID raise an unhandled `ValueError`, and
a `main` invocation with such a `--done` or `--delete` flag aborts with that
error before reaching the save. -/
theorem done_invalid_id_raises (now idv : Nat) (s : String) (hs : uuidParse s = none)
    (hne : s ≠ "") (t : Task) (rest : List Task) :
    Tasks.done now s (t :: rest) = Except.error PyError.valueError ∧
    Tasks.delete s (t :: rest) = Except.error PyError.valueError ∧
    main now idv (Args.mk none 1 none none false (some s) none false)
        (pickle_tasks (t :: rest))
      = Except.error (MainError.actionError PyError.valueError) ∧
    main now idv (Args.mk none 1 none none false none (some s) false)
        (pickle_tasks (t :: rest))
      = Except.error (MainError.actionError PyError.valueError) := by
  have hd : Tasks.done now s (t :: rest) = Except.error PyError.valueError := by
    simp [Tasks.done, hs]
  have hdel : Tasks.delete s (t :: rest) = Except.error PyError.valueError := by
    simp [Tasks.delete, hs]
  refine ⟨hd, hdel, ?_, ?_⟩ <;>
    simp [main, tasksInit, openRead, pickleLoad, pickle_tasks, runAction, truthyStr,
      truthyList, hne, hd, hdel]

/-- C3 witness: the 8-character short id "12345678" on a one-task
collection raises `ValueError` from `done`, `delete`, and in both `main`
flows, never reaching the save. -/
theorem done_invalid_id_raises_witness :
    Tasks.done 7 "12345678" [Task.mk 0 none "A" 11 1 none] = Except.error PyError.valueError ∧
    Tasks.delete "12345678" [Task.mk 0 none "A" 11 1 none] = Except.error PyError.valueError ∧
    main 7 0 (Args.mk none 1 none none false (some "12345678") none false)
        (pickle_tasks [Task.mk 0 none "A" 11 1 none])
      = Except.error (MainError.actionError PyError.valueError) ∧
    main 7 0 (Args.mk none 1 none none false none (some "12345678") false)
        (pickle_tasks [Task.mk 0 none "A" 11 1 none])
      = Except.error (MainError.actionError PyError.valueError) :=
  done_invalid_id_raises 7 0 "12345678" (by decide) (by decide) (Task.mk 0 none "A" 11 1 none) []

/-- C3 counterexample to the claim as stated: on an EMPTY collection the
loop body never runs, so `uuid.UUID` is never called; `done` with the
invalid short id "12345678" prints the not-found message and `main`
reaches the save and exits 0, contradicting the universally quantified
claim. -/
theorem done_invalid_id_raises_cex :
    uuidParse "12345678" = none ∧
    Tasks.done 0 "12345678" [] = Except.ok ([], [Output.notFoundMsg "12345678"]) ∧
    main 0 0 (Args.mk none 1 none none false (some "12345678") none false) FileState.missing
      = Except.ok (MainResult.mk [pickle_tasks []] [Output.notFoundMsg "12345678"] 0) :=
  ⟨by decide, rfl, rfl⟩

/-- C4: loading returns the empty collection when the file is missing,
empty, or truncated (the `EOFError` cases), propagates any other
deserialize error (`UnpicklingError`) to the caller, and returns the
stored collection from a well-formed file. -/
theorem load_error_handling :
    tasksInit FileState.missing = Except.ok [] ∧
    tasksInit (FileState.present FileContent.emptyFile) = Except.ok [] ∧
    tasksInit (FileState.present FileContent.truncated) = Except.ok [] ∧
    tasksInit (FileState.present FileContent.corrupt)
      = Except.error LoadError.unpicklingError ∧
    (∀ tasks, tasksInit (FileState.present (FileContent.good tasks)) = Except.ok tasks) :=
  ⟨rfl, rfl, rfl, rfl, fun _ => rfl⟩

/-- C5 (amended): `query` emits exactly the open tasks of the collection
whose name matches at least one term case-insensitively; each task is
emitted once per occurrence of a matching term in the supplied sequence
(terms counted with multiplicity, not deduplicated); and the output is in
the same display order as `list()`. -/
theorem query_semantics (terms : List String) (tasks : List Task) :
    (∀ t, t ∈ queryResults terms tasks ↔
      (t ∈ tasks ∧ t.completed = none ∧ ∃ term ∈ terms, termMatches term t.name)) ∧
    (∀ t, (queryResults terms tasks).count t
        = (listRows tasks).count t * terms.countP (fun term => termMatches term t.name)) ∧
    (queryResults terms tasks).Pairwise displayR :=
  ⟨mem_queryResults terms tasks,
   fun t => count_emit t terms (listRows tasks),
   pairwise_emit terms (listRows tasks) (listRows_pairwise tasks)⟩

/-- C5 counterexample to the claim as stated: with the duplicated term list
["a", "a"], the task named "alpha" matches exactly one distinct term but is
emitted twice. -/
theorem query_distinct_terms_cex :
    ((["a", "a"] : List String).dedup.countP (fun term => termMatches term "alpha") = 1) ∧
    (queryResults ["a", "a"] [Task.mk 0 none "alpha" 13 3 none]).count
        (Task.mk 0 none "alpha" 13 3 none) = 2 := by
  have h1 : listRows [Task.mk 0 none "alpha" 13 3 none]
      = [Task.mk 0 none "alpha" 13 3 none] := by
    simp [listRows, openTasks, sortTasks]
  constructor
  · decide
  · rw [queryResults, h1]
    decide

/-- C6: `report()` reorders the stored collection itself to the `taskLe`-
sorted permutation of the full collection (open and done tasks alike),
while `list()` sorts a copy of the open tasks and leaves the stored order
unchanged. -/
theorem report_sorts_in_place (tasks : List Task) :
    (Tasks.report tasks).1 = sortTasks tasks ∧
    (Tasks.report tasks).1.Perm tasks ∧
    (Tasks.report tasks).1.Pairwise (fun a b => taskLe a b = true) ∧
    (Tasks.list tasks).1 = tasks ∧
    (Tasks.list tasks).2 = [Output.table (sortTasks (openTasks tasks))] :=
  ⟨rfl, List.mergeSort_perm tasks taskLe, sortTasks_pairwise tasks, rfl, rfl⟩

/-- C7: whenever `main` completes normally (the chosen action returned,
whether it succeeded, rejected its input, or reported not-found), the
collection is persisted by exactly one save and the exit status is 0. -/
theorem main_saves_once_exit_zero (now idv : Nat) (args : Args) (fs : FileState)
    (res : MainResult) (hone : exactlyOneFlag args = true)
    (hrun : main now idv args fs = Except.ok res) :
    res.writes.length = 1 ∧ res.exitCode = 0 ∧
    (∃ tasks0 tasks2 out, tasksInit fs = Except.ok tasks0 ∧
      runAction now idv args tasks0 = Except.ok (tasks2, out) ∧
      res = MainResult.mk [pickle_tasks tasks2] out 0) := by
  cases h0 : tasksInit fs with
  | error e =>
    rw [main_eq_load_error now idv args fs e h0] at hrun
    simp at hrun
  | ok tasks0 =>
    rw [main_eq_load now idv args fs tasks0 h0] at hrun
    cases h1 : runAction now idv args tasks0 with
    | error e =>
      rw [h1] at hrun
      simp at hrun
    | ok p =>
      obtain ⟨tasks2, out⟩ := p
      rw [h1] at hrun
      simp only [Except.ok.injEq] at hrun
      subst hrun
      exact ⟨rfl, rfl, tasks0, tasks2, out, rfl, h1, rfl⟩

/-- C7 witness: an `--add x` invocation on a missing file performs one save
of the grown collection and exits 0. -/
theorem main_saves_once_exit_zero_witness :
    (MainResult.mk [pickle_tasks [Task.mk 0 none "x" 9 1 none]]
        [Output.createdMsg 9] 0).writes.length = 1 ∧
    (MainResult.mk [pickle_tasks [Task.mk 0 none "x" 9 1 none]]
        [Output.createdMsg 9] 0).exitCode = 0 ∧
    (∃ tasks0 tasks2 out, tasksInit FileState.missing = Except.ok tasks0 ∧
      runAction 0 9 (Args.mk (some "x") 1 none none false none none false) tasks0
        = Except.ok (tasks2, out) ∧
      MainResult.mk [pickle_tasks [Task.mk 0 none "x" 9 1 none]] [Output.createdMsg 9] 0
        = MainResult.mk [pickle_tasks tasks2] out 0) :=
  main_saves_once_exit_zero 0 9 (Args.mk (some "x") 1 none none false none none false)
    FileState.missing
    (MainResult.mk [pickle_tasks [Task.mk 0 none "x" 9 1 none]] [Output.createdMsg 9] 0)
    (by decide) rfl

/-- C8: `add` with an empty name performs no mutation, prints the error
message, and persisting afterwards re-writes exactly the prior state; `add`
with any non-empty name appends exactly one new task (length grows by one)
and reports its id. -/
theorem add_validation (idv now : Nat) (priority : Int) (due : Option Nat) (tasks : List Task) :
    Tasks.add idv now "" priority due tasks = (tasks, [Output.addErrorMsg]) ∧
    pickle_tasks (Tasks.add idv now "" priority due tasks).1 = pickle_tasks tasks ∧
    (∀ name, name ≠ "" →
      (Tasks.add idv now name priority due tasks).1
          = tasks ++ [Task.mk now none name idv priority due] ∧
      (Tasks.add idv now name priority due tasks).1.length = tasks.length + 1 ∧
      (Tasks.add idv now name priority due tasks).2 = [Output.createdMsg idv]) := by
  refine ⟨by simp [Tasks.add], by simp [Tasks.add], ?_⟩
  intro name hname
  simp [Tasks.add, hname]

/-- C8 witness: adding the empty name changes nothing, and adding "x" grows
the collection by one. -/
theorem add_validation_witness :
    Tasks.add 7 3 "" 1 none [] = ([], [Output.addErrorMsg]) ∧
    (Tasks.add 7 3 "x" 1 none []).1.length = List.length ([] : List Task) + 1 :=
  ⟨(add_validation 7 3 1 none []).1, ((add_validation 7 3 1 none []).2.2 "x" (by decide)).2.1⟩

/-- C9: completing an already-completed task again still succeeds and
overwrites only the completion timestamp with the strictly later time;
every other field is unchanged. -/
theorem done_twice_overwrites (t1 t2 : Nat) (h12 : t1 < t2) (s : String) (v : Nat)
    (hs : uuidParse s = some v) (pre : List Task) (hpre : ∀ u ∈ pre, u.unique_id ≠ v)
    (tk : Task) (hid : tk.unique_id = v) (post : List Task) :
    Tasks.done t1 s (pre ++ tk :: post)
      = Except.ok (pre ++ Task.completed_task t1 tk :: post, [Output.completedMsg s]) ∧
    Tasks.done t2 s (pre ++ Task.completed_task t1 tk :: post)
      = Except.ok (pre ++ Task.completed_task t2 tk :: post, [Output.completedMsg s]) ∧
    Task.completed_task t2 (Task.completed_task t1 tk) = Task.completed_task t2 tk ∧
    (Task.completed_task t1 tk).completed = some t1 ∧
    (Task.completed_task t2 tk).completed = some t2 ∧
    (∀ c1 c2, (Task.completed_task t1 tk).completed = some c1 →
      (Task.completed_task t2 tk).completed = some c2 → c1 < c2) ∧
    (Task.completed_task t2 tk).name = tk.name ∧
    (Task.completed_task t2 tk).unique_id = tk.unique_id ∧
    (Task.completed_task t2 tk).priority = tk.priority ∧
    (Task.completed_task t2 tk).due_date = tk.due_date ∧
    (Task.completed_task t2 tk).created = tk.created := by
  have hid2 : (Task.completed_task t1 tk).unique_id = v := hid
  have h1 : Tasks.done t1 s (pre ++ tk :: post)
      = Except.ok (pre ++ Task.completed_task t1 tk :: post, [Output.completedMsg s]) := by
    cases pre with
    | nil =>
      rw [List.nil_append, List.nil_append, done_eq_loop t1 s v hs tk post]
      simp [doneLoop, hid]
    | cons u r =>
      rw [List.cons_append, done_eq_loop t1 s v hs u (r ++ tk :: post),
        ← List.cons_append, doneLoop_found t1 v (u :: r) hpre tk hid post]
  have h2 : Tasks.done t2 s (pre ++ Task.completed_task t1 tk :: post)
      = Except.ok (pre ++ Task.completed_task t2 (Task.completed_task t1 tk) :: post,
          [Output.completedMsg s]) := by
    cases pre with
    | nil =>
      rw [List.nil_append, List.nil_append, done_eq_loop t2 s v hs _ post]
      simp [doneLoop, hid2]
    | cons u r =>
      rw [List.cons_append, done_eq_loop t2 s v hs u (r ++ _ :: post),
        ← List.cons_append, doneLoop_found t2 v (u :: r) hpre _ hid2 post]
  have hover : Task.completed_task t2 (Task.completed_task t1 tk) = Task.completed_task t2 tk := rfl
  rw [hover] at h2
  refine ⟨h1, h2, hover, rfl, rfl, ?_, rfl, rfl, rfl, rfl, rfl⟩
  intro c1 c2 hc1 hc2
  have e1 : t1 = c1 := Option.some.inj hc1
  have e2 : t2 = c2 := Option.some.inj hc2
  omega

/-- C9 witness: completing the same task at times 1 and then 2 succeeds
both times and leaves the completion timestamp at the later value. -/
theorem done_twice_overwrites_witness :
    Tasks.done 1 "00000000000000000000000000000007" [Task.mk 0 none "A" 7 1 none]
      = Except.ok ([Task.mk 0 (some 1) "A" 7 1 none],
          [Output.completedMsg "00000000000000000000000000000007"]) ∧
    Tasks.done 2 "00000000000000000000000000000007" [Task.mk 0 (some 1) "A" 7 1 none]
      = Except.ok ([Task.mk 0 (some 2) "A" 7 1 none],
          [Output.completedMsg "00000000000000000000000000000007"]) := by
  have h := done_twice_overwrites 1 2 (by decide) "00000000000000000000000000000007" 7
    (by decide) [] (by simp) (Task.mk 0 none "A" 7 1 none) (by decide) []
  exact ⟨h.1, h.2.1⟩

/-- C10: saving then loading returns the collection that was saved, and
saving the reloaded collection reproduces the identical persisted state. -/
theorem save_load_round_trip (tasks : List Task) :
    tasksInit (pickle_tasks tasks) = Except.ok tasks ∧
    (∀ tasks2, tasksInit (pickle_tasks tasks) = Except.ok tasks2 →
      pickle_tasks tasks2 = pickle_tasks tasks) := by
  refine ⟨rfl, ?_⟩
  intro tasks2 h
  have h2 : (Except.ok tasks : Except LoadError (List Task)) = Except.ok tasks2 := h
  rw [← Except.ok.inj h2]

/-- C10 witness: the round trip on the empty collection. -/
theorem save_load_round_trip_witness :
    tasksInit (pickle_tasks []) = Except.ok ([] : List Task) ∧
    pickle_tasks ([] : List Task) = pickle_tasks ([] : List Task) :=
  ⟨(save_load_round_trip []).1, (save_load_round_trip []).2 [] rfl⟩

end Todo
